import Mathlib

/-!
Verification of the RBAC/ABAC permission engine of the rcm-backend repository.

Shallow embedding of:
- app/features/permissions/dependencies.py : evaluate_conditions,
  get_user_permissions_in_org, has_permission, require_any_permission
- app/features/permissions/routes.py : the assignment routes
- app/features/permissions/models.py and app/features/users/models.py :
  the rows of the tables the engine reads.

Machine wall-clock values (the datetime.now calls) are passed as explicit
parameters so the functions stay pure.
-/

/-- Clock time as produced by datetime.time; Python compares times
lexicographically on (hour, minute, second), which on in-range values
coincides with comparing seconds-since-midnight. -/
structure PTime where
  hour : Nat
  minute : Nat
  second : Nat
deriving DecidableEq

def PTime.toSec (t : PTime) : Nat :=
  t.hour * 3600 + t.minute * 60 + t.second

/-- Python truthiness of a string: empty is falsy. Spelled out over the
character list so that the kernel can evaluate it. -/
def strIsEmpty (s : String) : Bool :=
  s.data.isEmpty

/-- ASCII lowering of one character, as str.lower() does on the ASCII
day names and condition keys this code handles. -/
def lowerChar (c : Char) : Char :=
  if 65 ≤ c.toNat ∧ c.toNat ≤ 90 then Char.ofNat (c.toNat + 32) else c

/-- str.lower() on ASCII strings. -/
def lowerStr (s : String) : String :=
  String.mk (s.data.map lowerChar)

/-- str.split on the colon character. -/
def splitOnColon : List Char → List (List Char)
  | [] => [[]]
  | c :: rest =>
    match splitOnColon rest with
    | [] => [[c]]
    | w :: ws => if c = ':' then [] :: w :: ws else (c :: w) :: ws

def isDigitChar (c : Char) : Bool :=
  decide (48 ≤ c.toNat ∧ c.toNat ≤ 57)

def digitsVal (l : List Char) : Nat :=
  l.foldl (fun n c => n * 10 + (c.toNat - 48)) 0

/-- datetime.strptime(s, "%H:%M").time(): one or two digit hour below 24,
a colon, one or two digit minute below 60, nothing else; on failure
(ValueError) the caller sees none. -/
def parseTimeHHMM (s : String) : Option PTime :=
  match splitOnColon s.data with
  | [hs, ms] =>
    if hs.isEmpty || ms.isEmpty || !(hs.all isDigitChar) || !(ms.all isDigitChar)
        || 2 < hs.length || 2 < ms.length then
      none
    else
      if digitsVal hs ≤ 23 ∧ digitsVal ms ≤ 59 then
        some ⟨digitsVal hs, digitsVal ms, 0⟩
      else none
  | _ => none

/-- Whether the second list is a leading segment of the first. -/
def listStartsWith : List Char → List Char → Bool
  | _, [] => true
  | [], _ :: _ => false
  | a :: as, b :: bs => decide (a = b) && listStartsWith as bs

/-- Python substring containment x in y (needle second). -/
def containsSub : List Char → List Char → Bool
  | [], needle => needle.isEmpty
  | c :: t, needle => listStartsWith (c :: t) needle || containsSub t needle

/-- A JSON value occurring as the value of one condition entry: either a
list of strings or a single string. -/
inductive CondVal where
  | vlist (l : List String)
  | vstr (s : String)
deriving DecidableEq

/-- The runtime context dictionary, restricted to the keys the evaluator
reads and has_permission writes. A field holding none models the key
being absent from the dictionary. -/
structure Ctx where
  current_time : Option PTime
  ip_address : Option String
  day_of_week : Option String
  department : Option String
deriving DecidableEq

/-- Python truthiness of an optional string: None and the empty string
are falsy. -/
def strTruthy : Option String → Bool
  | some s => !strIsEmpty s
  | none => false

/-- One iteration of the loop body of evaluate_conditions: whether the
condition entry (key, v) passes against the context (true means the loop
continues, false means evaluate_conditions returns False there). -/
def evalCond (now : PTime) (today : String) (context : Ctx) (key : String) (v : CondVal) : Bool :=
  if key = "time_between" then
    let t := context.current_time.getD now
    match v with
    | CondVal.vlist (a :: b :: _) =>
      match parseTimeHHMM a, parseTimeHHMM b with
      | some s, some e => decide (s.toSec ≤ t.toSec ∧ t.toSec ≤ e.toSec)
      | _, _ => false
    | _ => false
  else if key = "ip_range" then
    match context.ip_address with
    | some ip =>
      if strIsEmpty ip then false
      else
        match v with
        | CondVal.vlist l => l.any (fun x => decide (x = ip))
        | CondVal.vstr s => containsSub s.data ip.data
    | none => false
  else if key = "day_of_week" then
    let d :=
      match context.day_of_week with
      | some d0 => if strIsEmpty d0 then today else d0
      | none => today
    let days :=
      match v with
      | CondVal.vlist l => l.map lowerStr
      | CondVal.vstr s => s.data.map (fun c => lowerStr (String.singleton c))
    days.any (fun x => decide (x = d))
  else if key = "department" then
    match v, context.department with
    | CondVal.vstr s, some d => decide (d = s)
    | _, _ => false
  else
    true

/-- evaluate_conditions(conditions, context). The wall-clock defaults
(datetime.now) are the explicit parameters now and today. -/
def evaluate_conditions (now : PTime) (today : String)
    (conditions : Option (List (String × CondVal))) (context : Ctx) : Bool :=
  match conditions with
  | none => true
  | some cs =>
    if cs.isEmpty then true
    else cs.all (fun kv => evalCond now today context kv.1 kv.2)

/-- A row of the permissions table. -/
structure Permission where
  id : String
  name : String
  resource : String
  action : String
  conditions : Option (List (String × CondVal))
deriving DecidableEq

/-- A row of the roles table. -/
structure RoleRow where
  id : String
  name : String
  organization_id : Option String
deriving DecidableEq

/-- A row of the users table, restricted to the fields has_permission
reads. -/
structure UserRow where
  id : String
  is_admin : Bool
  current_organization_id : Option String
deriving DecidableEq

/-- A row of the organization_user_roles association table. -/
structure OrgUserRole where
  organization_id : String
  user_id : String
  role_id : String
  assigned_by_id : Option String
deriving DecidableEq

/-- A row of the organization_user_permissions association table. -/
structure OrgUserPerm where
  organization_id : String
  user_id : String
  permission_id : String
  assigned_by_id : Option String
deriving DecidableEq

/-- A row of the organization_user_groups association table. -/
structure OrgUserGroup where
  organization_id : String
  user_id : String
  group_id : String
deriving DecidableEq

/-- A row of the role_permissions association table. -/
structure RolePerm where
  role_id : String
  permission_id : String
deriving DecidableEq

/-- A row of the group_roles association table. -/
structure GroupRole where
  group_id : String
  role_id : String
deriving DecidableEq

/-- The relational state the permission engine reads and the assignment
routes write. -/
structure DB where
  permissions : List Permission
  roles : List RoleRow
  organization_user_roles : List OrgUserRole
  role_permissions : List RolePerm
  organization_user_permissions : List OrgUserPerm
  organization_user_groups : List OrgUserGroup
  group_roles : List GroupRole
deriving DecidableEq

/-- Query 1 of get_user_permissions_in_org: permissions joined through
organization_user_permissions filtered on (user_id, organization_id). -/
def directPerms (db : DB) (user_id organization_id : String) : List Permission :=
  (db.organization_user_permissions.filter
      (fun e => decide (e.user_id = user_id ∧ e.organization_id = organization_id))).flatMap
    (fun e => db.permissions.filter (fun p => decide (p.id = e.permission_id)))

/-- Query 2 of get_user_permissions_in_org: permissions joined through
role_permissions and organization_user_roles filtered on
(user_id, organization_id). -/
def rolePermsOf (db : DB) (user_id organization_id : String) : List Permission :=
  (db.organization_user_roles.filter
      (fun r => decide (r.user_id = user_id ∧ r.organization_id = organization_id))).flatMap
    (fun r =>
      (db.role_permissions.filter (fun rp => decide (rp.role_id = r.role_id))).flatMap
        (fun rp => db.permissions.filter (fun p => decide (p.id = rp.permission_id))))

/-- Query 3 of get_user_permissions_in_org: permissions joined through
role_permissions, group_roles and organization_user_groups filtered on
(user_id, organization_id). -/
def groupPermsOf (db : DB) (user_id organization_id : String) : List Permission :=
  (db.organization_user_groups.filter
      (fun g => decide (g.user_id = user_id ∧ g.organization_id = organization_id))).flatMap
    (fun g =>
      (db.group_roles.filter (fun gr => decide (gr.group_id = g.group_id))).flatMap
        (fun gr =>
          (db.role_permissions.filter (fun rp => decide (rp.role_id = gr.role_id))).flatMap
            (fun rp => db.permissions.filter (fun p => decide (p.id = rp.permission_id)))))

/-- permissions_map[perm.id] = perm on an association list: overwrite the
value if the key is present, append otherwise (dict insertion order). -/
def insertPerm (m : List (String × Permission)) (p : Permission) : List (String × Permission) :=
  if m.any (fun e => decide (e.1 = p.id)) then
    m.map (fun e => if e.1 = p.id then (e.1, p) else e)
  else
    m ++ [(p.id, p)]

/-- get_user_permissions_in_org(db, user_id, organization_id): fill
permissions_map from the three queries in order and return its values. -/
def get_user_permissions_in_org (db : DB) (user_id organization_id : String) : List Permission :=
  ((directPerms db user_id organization_id
      ++ rolePermsOf db user_id organization_id
      ++ groupPermsOf db user_id organization_id).foldl insertPerm []).map Prod.snd

/-- The two setdefault lines of has_permission on the context dict. -/
def mutateCtx (now : PTime) (today : String) (c : Ctx) : Ctx :=
  { c with
    current_time := some (c.current_time.getD now),
    day_of_week := some (c.day_of_week.getD today) }

/-- if not organization_id: organization_id = user.current_organization_id. -/
def resolveOrg (organization_id : Option String) (user : UserRow) : Option String :=
  if strTruthy organization_id then organization_id else user.current_organization_id

/-- has_permission(db, user, resource, action, organization_id, context).
Returns the boolean decision together with the context object the caller
observes after the call (None stays None: the dict created inside the
function for a None argument is local). -/
def has_permission (now : PTime) (today : String) (db : DB) (user : UserRow)
    (resource action : String) (organization_id : Option String)
    (context : Option Ctx) : Bool × Option Ctx :=
  if user.is_admin then (true, context)
  else
    match resolveOrg organization_id user with
    | none => (false, context)
    | some o =>
      if strIsEmpty o then (false, context)
      else
        let ctx1 := mutateCtx now today (context.getD ⟨none, none, none, none⟩)
        let granted := (get_user_permissions_in_org db user.id o).any (fun p =>
          decide (p.resource = resource) && decide (p.action = action)
            && evaluate_conditions now today p.conditions ctx1)
        (granted,
         match context with
         | some _ => some ctx1
         | none => none)

/-- The context dict built by the require_permission and
require_any_permission dependencies from the inbound request. -/
def buildGuardCtx (now : PTime) (today : String) (ip : Option String) : Ctx :=
  { current_time := some now
    ip_address := ip
    day_of_week := some today
    department := none }

/-- The loop of require_any_permission: successive has_permission calls
against the one context dict, which is threaded through because
has_permission mutates it in place. -/
def requireAnyLoop (now : PTime) (today : String) (db : DB) (user : UserRow)
    (org : Option String) : List (String × String) → Ctx → Bool × Ctx
  | [], ctx => (false, ctx)
  | (resource, action) :: rest, ctx =>
    match has_permission now today db user resource action org (some ctx) with
    | (true, ctx2) => (true, ctx2.getD ctx)
    | (false, ctx2) => requireAnyLoop now today db user org rest (ctx2.getD ctx)

/-- require_any_permission(permissions, organization_id) applied to a
request: builds the context once, resolves the organization once, and
returns whether any pair was granted together with the final state of the
shared context dict. -/
def require_any_permission (now : PTime) (today : String) (db : DB) (user : UserRow)
    (permissions : List (String × String)) (organization_id : Option String)
    (ip : Option String) : Bool × Ctx :=
  requireAnyLoop now today db user (resolveOrg organization_id user) permissions
    (buildGuardCtx now today ip)

/-- Outcome of an assignment route: a 200 response with a message, or an
HTTPException. -/
inductive RouteOutcome where
  | ok (message : String)
  | httpError (code : Nat) (detail : String)
deriving DecidableEq

/-- The ASCII single-quote character used inside route messages. -/
def sglq : String := String.singleton (Char.ofNat 39)

/-- POST /assignments/user-role: existence check on the
(organization_id, user_id, role_id) triple, then insert. -/
def assign_role_to_user (db : DB) (organization_id user_id role_id : String)
    (current_user_id : String) : DB × RouteOutcome :=
  if db.organization_user_roles.any (fun e =>
      decide (e.organization_id = organization_id ∧ e.user_id = user_id ∧ e.role_id = role_id)) then
    (db, RouteOutcome.ok "Role already assigned to user in this organization")
  else
    ({ db with organization_user_roles :=
        db.organization_user_roles
          ++ [⟨organization_id, user_id, role_id, some current_user_id⟩] },
     RouteOutcome.ok "Role assigned to user successfully")

/-- POST /assignments/user-permission: existence check on the
(organization_id, user_id, permission_id) triple, then insert. -/
def assign_permission_to_user (db : DB) (organization_id user_id permission_id : String)
    (current_user_id : String) : DB × RouteOutcome :=
  if db.organization_user_permissions.any (fun e =>
      decide (e.organization_id = organization_id ∧ e.user_id = user_id
        ∧ e.permission_id = permission_id)) then
    (db, RouteOutcome.ok "Permission already assigned to user in this organization")
  else
    ({ db with organization_user_permissions :=
        db.organization_user_permissions
          ++ [⟨organization_id, user_id, permission_id, some current_user_id⟩] },
     RouteOutcome.ok "Permission assigned to user successfully")

/-- POST /groups/group_id/users: existence check on the
(organization_id, user_id, group_id) triple, then insert. -/
def add_user_to_group (db : DB) (group_id organization_id user_id : String) : DB × RouteOutcome :=
  if db.organization_user_groups.any (fun e =>
      decide (e.organization_id = organization_id ∧ e.user_id = user_id
        ∧ e.group_id = group_id)) then
    (db, RouteOutcome.ok "User already in group")
  else
    ({ db with organization_user_groups :=
        db.organization_user_groups ++ [⟨organization_id, user_id, group_id⟩] },
     RouteOutcome.ok "User added to group successfully")

/-- POST /groups/group_id/roles: existence check on the
(group_id, role_id) pair, then insert. -/
def assign_role_to_group (db : DB) (group_id role_id : String) : DB × RouteOutcome :=
  if db.group_roles.any (fun e => decide (e.group_id = group_id ∧ e.role_id = role_id)) then
    (db, RouteOutcome.ok "Role already assigned to group")
  else
    ({ db with group_roles := db.group_roles ++ [⟨group_id, role_id⟩] },
     RouteOutcome.ok "Role assigned to group successfully")

/-- POST /roles/role_id/permissions: 404 checks for the role and
permission rows, existence check on the (role_id, permission_id) pair,
then insert. -/
def assign_permission_to_role (db : DB) (role_id permission_id : String) : DB × RouteOutcome :=
  match db.roles.find? (fun r => decide (r.id = role_id)) with
  | none => (db, RouteOutcome.httpError 404 "Role not found")
  | some role =>
    match db.permissions.find? (fun p => decide (p.id = permission_id)) with
    | none => (db, RouteOutcome.httpError 404 "Permission not found")
    | some permission =>
      if db.role_permissions.any (fun e =>
          decide (e.role_id = role_id ∧ e.permission_id = permission_id)) then
        (db, RouteOutcome.ok
          ("Permission " ++ sglq ++ permission.name ++ sglq
            ++ " already assigned to role " ++ sglq ++ role.name ++ sglq))
      else
        ({ db with role_permissions := db.role_permissions ++ [⟨role_id, permission_id⟩] },
         RouteOutcome.ok
          ("Permission " ++ sglq ++ permission.name ++ sglq
            ++ " assigned to role " ++ sglq ++ role.name ++ sglq))

/-- Number of organization_user_roles rows carrying a given
(organization_id, user_id, role_id) triple. -/
def countRoleEdge (db : DB) (organization_id user_id role_id : String) : Nat :=
  (db.organization_user_roles.filter (fun e =>
      decide (e.organization_id = organization_id ∧ e.user_id = user_id
        ∧ e.role_id = role_id))).length

/-- No two rows of any grant relation carry the same key columns. -/
def noDupGrantEdges (db : DB) : Prop :=
  (db.organization_user_roles.map (fun e => (e.organization_id, e.user_id, e.role_id))).Nodup
  ∧ (db.organization_user_permissions.map
      (fun e => (e.organization_id, e.user_id, e.permission_id))).Nodup
  ∧ (db.organization_user_groups.map
      (fun e => (e.organization_id, e.user_id, e.group_id))).Nodup
  ∧ (db.role_permissions.map (fun e => (e.role_id, e.permission_id))).Nodup
  ∧ (db.group_roles.map (fun e => (e.group_id, e.role_id))).Nodup

/-- A store exercising all three grant paths for user u1 in
organization o1: p2 directly, p1 both directly and through role r1, p3
via group g1 and role r2. -/
def dbEx : DB :=
  ⟨[⟨"p1", "n1", "claims", "read", none⟩, ⟨"p2", "n2", "reports", "export", none⟩,
    ⟨"p3", "n3", "claims", "delete", none⟩],
   [],
   [⟨"o1", "u1", "r1", none⟩],
   [⟨"r1", "p1"⟩, ⟨"r2", "p3"⟩],
   [⟨"o1", "u1", "p2", none⟩, ⟨"o1", "u1", "p1", none⟩],
   [⟨"o1", "u1", "g1"⟩],
   [⟨"g1", "r2"⟩]⟩

/-- C1: a user with the admin flag set is granted every (resource, action)
for every organization_id argument and every context, with the decision
independent of the grant relations and no condition ever evaluated, and
the context returned untouched. -/
theorem claim_C1 (now : PTime) (today : String) (db : DB) (user : UserRow)
    (resource action : String) (organization_id : Option String) (context : Option Ctx)
    (hadm : user.is_admin = true) :
    has_permission now today db user resource action organization_id context = (true, context) := by
  simp [has_permission, hadm]

/-- C1 witness: the admin bypass on a concrete admin user and empty store. -/
theorem claim_C1_witness :
    has_permission ⟨0, 0, 0⟩ "monday" ⟨[], [], [], [], [], [], []⟩ ⟨"u", true, none⟩
      "claims" "read" none none = (true, none) :=
  claim_C1 ⟨0, 0, 0⟩ "monday" ⟨[], [], [], [], [], [], []⟩ ⟨"u", true, none⟩
    "claims" "read" none none rfl

/-- C3: a non-admin user with no organization_id argument and no selected
organization is denied for every resource, action and context; the model
is a total function, so no exception is produced. -/
theorem claim_C3 (now : PTime) (today : String) (db : DB) (user : UserRow)
    (resource action : String) (context : Option Ctx)
    (hadm : user.is_admin = false) (hcur : user.current_organization_id = none) :
    has_permission now today db user resource action none context = (false, context) := by
  simp [has_permission, hadm, resolveOrg, strTruthy, hcur]

/-- C3 witness: concrete non-admin user with no organization context. -/
theorem claim_C3_witness :
    has_permission ⟨0, 0, 0⟩ "monday" ⟨[], [], [], [], [], [], []⟩ ⟨"u", false, none⟩
      "claims" "read" none none = (false, none) :=
  claim_C3 ⟨0, 0, 0⟩ "monday" ⟨[], [], [], [], [], [], []⟩ ⟨"u", false, none⟩
    "claims" "read" none rfl rfl

/-- C4: a conditions mapping all of whose keys are unrecognized evaluates
to true for every context. -/
theorem claim_C4 (now : PTime) (today : String) (cs : List (String × CondVal)) (context : Ctx)
    (h : ∀ kv ∈ cs, kv.1 ≠ "time_between" ∧ kv.1 ≠ "ip_range"
      ∧ kv.1 ≠ "day_of_week" ∧ kv.1 ≠ "department") :
    evaluate_conditions now today (some cs) context = true := by
  simp only [evaluate_conditions]
  split
  · rfl
  · rw [List.all_eq_true]
    intro kv hkv
    obtain ⟨h1, h2, h3, h4⟩ := h kv hkv
    simp [evalCond, h1, h2, h3, h4]

/-- C4 witness: the conditions mapping foo maps-to bar passes for an
empty context. -/
theorem claim_C4_witness :
    evaluate_conditions ⟨0, 0, 0⟩ "monday" (some [("foo", CondVal.vstr "bar")])
      ⟨none, none, none, none⟩ = true :=
  claim_C4 ⟨0, 0, 0⟩ "monday" [("foo", CondVal.vstr "bar")] ⟨none, none, none, none⟩ (by decide)

/-- evaluate_conditions on a one-entry mapping reduces to the pass check
of that entry. -/
theorem evaluate_conditions_singleton (now : PTime) (today : String) (context : Ctx)
    (k : String) (v : CondVal) :
    evaluate_conditions now today (some [(k, v)]) context = evalCond now today context k v := by
  simp [evaluate_conditions]

/-- C5: for a well-formed time_between condition and a context supplying
current_time, the condition passes exactly on the inclusive interval; a
malformed time string or a list of fewer than two elements makes
evaluate_conditions return false. -/
theorem claim_C5 (a b : String) (s e t : PTime) (context : Ctx) (now : PTime) (today : String)
    (ha : parseTimeHHMM a = some s) (hb : parseTimeHHMM b = some e)
    (ht : context.current_time = some t) :
    (evaluate_conditions now today (some [("time_between", CondVal.vlist [a, b])]) context = true
      ↔ (s.toSec ≤ t.toSec ∧ t.toSec ≤ e.toSec))
    ∧ (∀ l : List String, l.length < 2 →
        evaluate_conditions now today (some [("time_between", CondVal.vlist l)]) context = false)
    ∧ (∀ a2 b2 : String, parseTimeHHMM a2 = none →
        evaluate_conditions now today (some [("time_between", CondVal.vlist [a2, b2])]) context = false)
    ∧ (∀ a2 b2 : String, parseTimeHHMM b2 = none →
        evaluate_conditions now today (some [("time_between", CondVal.vlist [a2, b2])]) context = false)
    := by
  refine ⟨?_, ?_, ?_, ?_⟩
  · simp [evaluate_conditions, evalCond, ha, hb, ht]
  · intro l hl
    match l, hl with
    | [], _ => simp [evaluate_conditions, evalCond, ht]
    | [x], _ => simp [evaluate_conditions, evalCond, ht]
  · intro a2 b2 ha2
    simp [evaluate_conditions, evalCond, ha2, ht]
  · intro a2 b2 hb2
    cases hp : parseTimeHHMM a2 <;>
      simp [evaluate_conditions, evalCond, hp, hb2, ht]

/-- C5 witness: the 09:00 to 17:00 window at the boundaries and outside. -/
theorem claim_C5_witness :
    ((evaluate_conditions ⟨0, 0, 0⟩ "x"
        (some [("time_between", CondVal.vlist ["09:00", "17:00"])])
        ⟨some ⟨12, 0, 0⟩, none, none, none⟩ = true
      ↔ (PTime.toSec ⟨9, 0, 0⟩ ≤ PTime.toSec ⟨12, 0, 0⟩
          ∧ PTime.toSec ⟨12, 0, 0⟩ ≤ PTime.toSec ⟨17, 0, 0⟩))
    ∧ (∀ l : List String, l.length < 2 →
        evaluate_conditions ⟨0, 0, 0⟩ "x" (some [("time_between", CondVal.vlist l)])
          ⟨some ⟨12, 0, 0⟩, none, none, none⟩ = false)
    ∧ (∀ a2 b2 : String, parseTimeHHMM a2 = none →
        evaluate_conditions ⟨0, 0, 0⟩ "x" (some [("time_between", CondVal.vlist [a2, b2])])
          ⟨some ⟨12, 0, 0⟩, none, none, none⟩ = false)
    ∧ (∀ a2 b2 : String, parseTimeHHMM b2 = none →
        evaluate_conditions ⟨0, 0, 0⟩ "x" (some [("time_between", CondVal.vlist [a2, b2])])
          ⟨some ⟨12, 0, 0⟩, none, none, none⟩ = false)) :=
  claim_C5 "09:00" "17:00" ⟨9, 0, 0⟩ ⟨17, 0, 0⟩ ⟨12, 0, 0⟩
    ⟨some ⟨12, 0, 0⟩, none, none, none⟩ ⟨0, 0, 0⟩ "x" (by decide) (by decide) rfl

/-- C9: a well-formed time_between window whose start parses strictly
later than its end can never pass, whatever the context supplies. -/
theorem claim_C9 (a b : String) (s e : PTime)
    (ha : parseTimeHHMM a = some s) (hb : parseTimeHHMM b = some e)
    (hrev : e.toSec < s.toSec) :
    ∀ (now : PTime) (today : String) (context : Ctx),
      evaluate_conditions now today (some [("time_between", CondVal.vlist [a, b])]) context
        = false := by
  intro now today context
  simp [evaluate_conditions, evalCond, ha, hb]
  omega

/-- C9 witness: the reversed window 17:00 to 09:00 fails at noon. -/
theorem claim_C9_witness :
    evaluate_conditions ⟨0, 0, 0⟩ "x" (some [("time_between", CondVal.vlist ["17:00", "09:00"])])
      ⟨some ⟨12, 0, 0⟩, none, none, none⟩ = false :=
  claim_C9 "17:00" "09:00" ⟨17, 0, 0⟩ ⟨9, 0, 0⟩ (by decide) (by decide) (by decide)
    ⟨0, 0, 0⟩ "x" ⟨some ⟨12, 0, 0⟩, none, none, none⟩

/-- C7: an ip_range condition passes exactly when the context carries a
non-empty ip_address literally equal to one of the listed strings; an
address inside a listed CIDR block but not string-equal to it fails. -/
theorem claim_C7 :
    (∀ (now : PTime) (today : String) (l : List String) (context : Ctx),
      evaluate_conditions now today (some [("ip_range", CondVal.vlist l)]) context = true
        ↔ ∃ ip, context.ip_address = some ip ∧ strIsEmpty ip = false ∧ ip ∈ l)
    ∧ evaluate_conditions ⟨0, 0, 0⟩ "x"
        (some [("ip_range", CondVal.vlist ["192.168.1.0/24"])])
        ⟨none, some "192.168.1.5", none, none⟩ = false := by
  constructor
  · intro now today l context
    rw [evaluate_conditions_singleton]
    have h1 : evalCond now today context "ip_range" (CondVal.vlist l) =
        (match context.ip_address with
         | some ip => if strIsEmpty ip then false else l.any (fun x => decide (x = ip))
         | none => false) := rfl
    rw [h1]
    cases hip : context.ip_address with
    | none => simp
    | some ip =>
      cases hemp : strIsEmpty ip with
      | true => simp [hemp]
      | false => simp [hemp, List.any_eq_true]
  · decide

/-- C6 counterexample: the claim says day_of_week [monday, tuesday]
passes for context day_of_week = Monday, but the code lowercases only the
listed names and not the caller-supplied context value, so the check
fails even when the wall-clock day is monday. -/
theorem claim_C6_cex :
    evaluate_conditions ⟨0, 0, 0⟩ "monday"
      (some [("day_of_week", CondVal.vlist ["monday", "tuesday"])])
      ⟨none, none, some "Monday", none⟩ = false := by decide

/-- C6 amended: a day_of_week condition passes iff the context value,
compared verbatim, equals one of the listed day names lowercased; the
comparison is case-insensitive only on the condition side, so monday
passes while Monday and Sunday fail against [monday, tuesday]. -/
theorem claim_C6_amended (l : List String) (context : Ctx) (d : String)
    (now : PTime) (today : String)
    (hd : context.day_of_week = some d) (hne : strIsEmpty d = false) :
    evaluate_conditions now today (some [("day_of_week", CondVal.vlist l)]) context = true
      ↔ d ∈ l.map lowerStr := by
  rw [evaluate_conditions_singleton]
  have h1 : evalCond now today context "day_of_week" (CondVal.vlist l) =
      ((l.map lowerStr).any (fun x =>
        decide (x = (match context.day_of_week with
                     | some d0 => if strIsEmpty d0 then today else d0
                     | none => today)))) := rfl
  rw [h1, hd]
  simp [hne, List.any_eq_true]

/-- C6 witness: against [monday, tuesday], the context value monday
passes and Sunday fails. -/
theorem claim_C6_amended_witness :
    (evaluate_conditions ⟨0, 0, 0⟩ "monday"
        (some [("day_of_week", CondVal.vlist ["monday", "tuesday"])])
        ⟨none, none, some "monday", none⟩ = true
      ↔ "monday" ∈ List.map lowerStr ["monday", "tuesday"])
    ∧ (evaluate_conditions ⟨0, 0, 0⟩ "monday"
        (some [("day_of_week", CondVal.vlist ["monday", "tuesday"])])
        ⟨none, none, some "Sunday", none⟩ = true
      ↔ "Sunday" ∈ List.map lowerStr ["monday", "tuesday"]) :=
  ⟨claim_C6_amended ["monday", "tuesday"] ⟨none, none, some "monday", none⟩ "monday"
      ⟨0, 0, 0⟩ "monday" rfl (by decide),
   claim_C6_amended ["monday", "tuesday"] ⟨none, none, some "Sunday", none⟩ "Sunday"
      ⟨0, 0, 0⟩ "monday" rfl (by decide)⟩

/-- A context that already carries current_time and day_of_week is left
unchanged by the setdefault pair. -/
theorem mutateCtx_of_isSome (now : PTime) (today : String) (ctx : Ctx)
    (h1 : ctx.current_time.isSome = true) (h2 : ctx.day_of_week.isSome = true) :
    mutateCtx now today ctx = ctx := by
  obtain ⟨t, ht⟩ := Option.isSome_iff_exists.mp h1
  obtain ⟨d, hd⟩ := Option.isSome_iff_exists.mp h2
  cases ctx
  simp_all [mutateCtx]

/-- has_permission hands back exactly the context it was given whenever
that context already carries current_time and day_of_week. -/
theorem has_permission_ctx_fixed (now : PTime) (today : String) (db : DB) (user : UserRow)
    (resource action : String) (oarg : Option String) (ctx : Ctx)
    (h1 : ctx.current_time.isSome = true) (h2 : ctx.day_of_week.isSome = true) :
    (has_permission now today db user resource action oarg (some ctx)).2 = some ctx := by
  simp only [has_permission]
  split
  · rfl
  · split
    · rfl
    · split
      · rfl
      · simp [mutateCtx_of_isSome now today ctx h1 h2]

/-- The loop of require_any_permission threads one and the same context
value through all its has_permission calls when that context carries
current_time and day_of_week. -/
theorem requireAnyLoop_ctx_fixed (now : PTime) (today : String) (db : DB) (user : UserRow)
    (org : Option String) :
    ∀ (pairs : List (String × String)) (ctx : Ctx),
      ctx.current_time.isSome = true → ctx.day_of_week.isSome = true →
      (requireAnyLoop now today db user org pairs ctx).2 = ctx := by
  intro pairs
  induction pairs with
  | nil => intro ctx h1 h2; rfl
  | cons p rest ih =>
    intro ctx h1 h2
    obtain ⟨r, a⟩ := p
    have hc := has_permission_ctx_fixed now today db user r a org ctx h1 h2
    simp only [requireAnyLoop]
    cases hres : has_permission now today db user r a org (some ctx) with
    | mk b c2 =>
      rw [hres] at hc
      simp only at hc
      cases b
      · simpa [hc] using ih ctx h1 h2
      · simp [hc]

/-- C10: on a non-admin call with a resolvable organization and a
caller-supplied context, the caller observes the context mutated by the
two setdefault lines; entries the caller supplied are unchanged, missing
current_time and day_of_week are filled in, and require_any_permission
threads the one context dict (already fully populated, hence fixed)
through all its has_permission calls. -/
theorem claim_C10 (now : PTime) (today : String) (db : DB) (user : UserRow)
    (resource action : String) (organization_id : Option String) (c : Ctx) (o : String)
    (hadm : user.is_admin = false)
    (horg : resolveOrg organization_id user = some o)
    (ho : strIsEmpty o = false) :
    (has_permission now today db user resource action organization_id (some c)).2
        = some (mutateCtx now today c)
    ∧ (mutateCtx now today c).current_time = some (c.current_time.getD now)
    ∧ (mutateCtx now today c).day_of_week = some (c.day_of_week.getD today)
    ∧ (∀ t, c.current_time = some t → (mutateCtx now today c).current_time = some t)
    ∧ (∀ d, c.day_of_week = some d → (mutateCtx now today c).day_of_week = some d)
    ∧ (mutateCtx now today c).ip_address = c.ip_address
    ∧ (mutateCtx now today c).department = c.department
    ∧ (∀ (pairs : List (String × String)) (ip : Option String),
        (require_any_permission now today db user pairs organization_id ip).2
          = buildGuardCtx now today ip)
    ∧ (∀ (ctx : Ctx) (r2 a2 : String) (oarg : Option String),
        ctx.current_time.isSome = true → ctx.day_of_week.isSome = true →
        (has_permission now today db user r2 a2 oarg (some ctx)).2 = some ctx) := by
  refine ⟨?_, rfl, rfl, ?_, ?_, rfl, rfl, ?_, ?_⟩
  · simp [has_permission, hadm, horg, ho]
  · intro t ht; simp [mutateCtx, ht]
  · intro d hd; simp [mutateCtx, hd]
  · intro pairs ip
    exact requireAnyLoop_ctx_fixed now today db user (resolveOrg organization_id user)
      pairs (buildGuardCtx now today ip) rfl rfl
  · intro ctx r2 a2 oarg h1 h2
    exact has_permission_ctx_fixed now today db user r2 a2 oarg ctx h1 h2

/-- C10 witness: a concrete non-admin user with a selected organization
and an initially empty context dict. -/
theorem claim_C10_witness :
    (has_permission ⟨8, 30, 0⟩ "friday" ⟨[], [], [], [], [], [], []⟩ ⟨"u", false, some "o1"⟩
        "claims" "read" none (some ⟨none, none, none, none⟩)).2
      = some (mutateCtx ⟨8, 30, 0⟩ "friday" ⟨none, none, none, none⟩)
    ∧ (mutateCtx ⟨8, 30, 0⟩ "friday" (⟨none, none, none, none⟩ : Ctx)).current_time
        = some ((none : Option PTime).getD ⟨8, 30, 0⟩)
    ∧ (mutateCtx ⟨8, 30, 0⟩ "friday" (⟨none, none, none, none⟩ : Ctx)).day_of_week
        = some ((none : Option String).getD "friday")
    ∧ (∀ t, (none : Option PTime) = some t →
        (mutateCtx ⟨8, 30, 0⟩ "friday" (⟨none, none, none, none⟩ : Ctx)).current_time = some t)
    ∧ (∀ d, (none : Option String) = some d →
        (mutateCtx ⟨8, 30, 0⟩ "friday" (⟨none, none, none, none⟩ : Ctx)).day_of_week = some d)
    ∧ (mutateCtx ⟨8, 30, 0⟩ "friday" (⟨none, none, none, none⟩ : Ctx)).ip_address = none
    ∧ (mutateCtx ⟨8, 30, 0⟩ "friday" (⟨none, none, none, none⟩ : Ctx)).department = none
    ∧ (∀ (pairs : List (String × String)) (ip : Option String),
        (require_any_permission ⟨8, 30, 0⟩ "friday" ⟨[], [], [], [], [], [], []⟩
            ⟨"u", false, some "o1"⟩ pairs none ip).2
          = buildGuardCtx ⟨8, 30, 0⟩ "friday" ip)
    ∧ (∀ (ctx : Ctx) (r2 a2 : String) (oarg : Option String),
        ctx.current_time.isSome = true → ctx.day_of_week.isSome = true →
        (has_permission ⟨8, 30, 0⟩ "friday" ⟨[], [], [], [], [], [], []⟩ ⟨"u", false, some "o1"⟩
            r2 a2 oarg (some ctx)).2 = some ctx) :=
  claim_C10 ⟨8, 30, 0⟩ "friday" ⟨[], [], [], [], [], [], []⟩ ⟨"u", false, some "o1"⟩
    "claims" "read" none ⟨none, none, none, none⟩ "o1" rfl (by decide) (by decide)

/-- Keys of the permissions map after one insertion: unchanged when the
id was present, extended by the id otherwise. -/
theorem insertPerm_map_fst (m : List (String × Permission)) (p : Permission) :
    (insertPerm m p).map Prod.fst =
      if m.any (fun e => decide (e.1 = p.id)) then m.map Prod.fst
      else m.map Prod.fst ++ [p.id] := by
  unfold insertPerm
  split
  · rw [List.map_map]
    exact List.map_congr_left (fun e _ => by by_cases hc : e.1 = p.id <;> simp [hc])
  · simp

/-- Membership in the key set after one insertion. -/
theorem mem_keys_insertPerm (m : List (String × Permission)) (p : Permission) (k : String) :
    k ∈ (insertPerm m p).map Prod.fst ↔ (k ∈ m.map Prod.fst ∨ k = p.id) := by
  rw [insertPerm_map_fst]
  split
  · case isTrue h =>
    rw [List.any_eq_true] at h
    obtain ⟨e, he, hid⟩ := h
    rw [decide_eq_true_eq] at hid
    constructor
    · exact Or.inl
    · rintro (hk | rfl)
      · exact hk
      · exact hid ▸ List.mem_map_of_mem Prod.fst he
  · simp

/-- Insertion keeps the key set duplicate-free. -/
theorem nodup_keys_insertPerm (m : List (String × Permission)) (p : Permission)
    (h : (m.map Prod.fst).Nodup) : ((insertPerm m p).map Prod.fst).Nodup := by
  rw [insertPerm_map_fst]
  split
  · exact h
  · case isFalse hf =>
    rw [List.nodup_append]
    refine ⟨h, List.nodup_singleton _, ?_⟩
    intro k hk hk1
    rw [List.mem_singleton] at hk1
    subst hk1
    rw [List.mem_map] at hk
    obtain ⟨e, he, hid⟩ := hk
    exact hf (List.any_eq_true.mpr ⟨e, he, decide_eq_true hid⟩)

/-- Every entry after one insertion is an old entry or the inserted one. -/
theorem mem_insertPerm (m : List (String × Permission)) (p : Permission)
    (e : String × Permission) (h : e ∈ insertPerm m p) : e ∈ m ∨ e = (p.id, p) := by
  unfold insertPerm at h
  split at h
  · rw [List.mem_map] at h
    obtain ⟨e0, he0, rfl⟩ := h
    by_cases hc : e0.1 = p.id
    · right; simp [hc]
    · left; simpa [hc] using he0
  · rw [List.mem_append, List.mem_singleton] at h
    exact h

/-- Keys of the map built by folding insertions. -/
theorem foldl_insertPerm_keys (L : List Permission) :
    ∀ (m : List (String × Permission)) (k : String),
      k ∈ (L.foldl insertPerm m).map Prod.fst
        ↔ (k ∈ m.map Prod.fst ∨ k ∈ L.map Permission.id) := by
  induction L with
  | nil => simp
  | cons p L ih =>
    intro m k
    rw [List.foldl_cons, ih, mem_keys_insertPerm]
    simp [or_assoc, or_comm, or_left_comm]

/-- The key set of the folded map is duplicate-free. -/
theorem foldl_insertPerm_nodup (L : List Permission) :
    ∀ (m : List (String × Permission)), (m.map Prod.fst).Nodup →
      ((L.foldl insertPerm m).map Prod.fst).Nodup := by
  induction L with
  | nil => intro m h; exact h
  | cons p L ih => intro m h; exact ih _ (nodup_keys_insertPerm m p h)

/-- Every entry of the folded map is an accumulator entry or a processed
permission stored under its own id. -/
theorem foldl_insertPerm_mem (L : List Permission) :
    ∀ (m : List (String × Permission)) (e : String × Permission),
      e ∈ L.foldl insertPerm m → e ∈ m ∨ (e.2 ∈ L ∧ e.1 = e.2.id) := by
  induction L with
  | nil => intro m e h; exact Or.inl h
  | cons p L ih =>
    intro m e h
    rcases ih _ _ h with h1 | ⟨h1, h2⟩
    · rcases mem_insertPerm _ _ _ h1 with hm | rfl
      · exact Or.inl hm
      · exact Or.inr ⟨List.mem_cons_self _ _, rfl⟩
    · exact Or.inr ⟨List.mem_cons_of_mem _ h1, h2⟩

/-- Everything query 1 returns is a permissions-table row. -/
theorem mem_directPerms (db : DB) (uid oid : String) (p : Permission)
    (h : p ∈ directPerms db uid oid) : p ∈ db.permissions := by
  unfold directPerms at h
  rw [List.mem_flatMap] at h
  obtain ⟨e, _, hp⟩ := h
  exact (List.mem_filter.mp hp).1

/-- Everything query 2 returns is a permissions-table row. -/
theorem mem_rolePermsOf (db : DB) (uid oid : String) (p : Permission)
    (h : p ∈ rolePermsOf db uid oid) : p ∈ db.permissions := by
  unfold rolePermsOf at h
  rw [List.mem_flatMap] at h
  obtain ⟨r, _, hp⟩ := h
  rw [List.mem_flatMap] at hp
  obtain ⟨rp, _, hp⟩ := hp
  exact (List.mem_filter.mp hp).1

/-- Everything query 3 returns is a permissions-table row. -/
theorem mem_groupPermsOf (db : DB) (uid oid : String) (p : Permission)
    (h : p ∈ groupPermsOf db uid oid) : p ∈ db.permissions := by
  unfold groupPermsOf at h
  rw [List.mem_flatMap] at h
  obtain ⟨g, _, hp⟩ := h
  rw [List.mem_flatMap] at hp
  obtain ⟨gr, _, hp⟩ := hp
  rw [List.mem_flatMap] at hp
  obtain ⟨rp, _, hp⟩ := hp
  exact (List.mem_filter.mp hp).1

/-- Rows of the permissions table are determined by their id when the id
column is duplicate-free. -/
theorem perm_eq_of_id_eq (db : DB) (hids : (db.permissions.map Permission.id).Nodup)
    (p q : Permission) (hp : p ∈ db.permissions) (hq : q ∈ db.permissions)
    (h : p.id = q.id) : p = q :=
  List.inj_on_of_nodup_map hids hp hq h

/-- C2: the grant resolver returns exactly the union of the direct, role
and group query results, each permission id at most once; with zero
assignments in the organization it returns the empty list and a
non-admin has_permission call in that organization denies. -/
theorem claim_C2 (db : DB) (uid oid : String)
    (hids : (db.permissions.map Permission.id).Nodup) :
    (∀ p : Permission,
      p ∈ get_user_permissions_in_org db uid oid ↔
        (p ∈ directPerms db uid oid ∨ p ∈ rolePermsOf db uid oid ∨ p ∈ groupPermsOf db uid oid))
    ∧ ((get_user_permissions_in_org db uid oid).map Permission.id).Nodup
    ∧ ((∀ e ∈ db.organization_user_permissions, ¬(e.user_id = uid ∧ e.organization_id = oid)) →
       (∀ e ∈ db.organization_user_roles, ¬(e.user_id = uid ∧ e.organization_id = oid)) →
       (∀ e ∈ db.organization_user_groups, ¬(e.user_id = uid ∧ e.organization_id = oid)) →
       get_user_permissions_in_org db uid oid = []
       ∧ (∀ (now : PTime) (today : String) (user : UserRow) (resource action : String)
            (context : Option Ctx),
           user.is_admin = false → user.id = uid → strIsEmpty oid = false →
           (has_permission now today db user resource action (some oid) context).1 = false)) := by
  have hsub : ∀ p : Permission,
      p ∈ directPerms db uid oid ++ rolePermsOf db uid oid ++ groupPermsOf db uid oid →
      p ∈ db.permissions := by
    intro p hp
    rw [List.mem_append, List.mem_append] at hp
    rcases hp with (h | h) | h
    · exact mem_directPerms db uid oid p h
    · exact mem_rolePermsOf db uid oid p h
    · exact mem_groupPermsOf db uid oid p h
  refine ⟨?_, ?_, ?_⟩
  · intro p
    constructor
    · intro h
      rw [get_user_permissions_in_org, List.mem_map] at h
      obtain ⟨e, he, rfl⟩ := h
      rcases foldl_insertPerm_mem _ _ _ he with h0 | ⟨h1, _⟩
      · cases h0
      · rw [List.mem_append, List.mem_append] at h1
        tauto
    · intro h
      have hmem : p ∈ directPerms db uid oid ++ rolePermsOf db uid oid
          ++ groupPermsOf db uid oid := by
        rw [List.mem_append, List.mem_append]
        tauto
      have hkey : p.id ∈ ((directPerms db uid oid ++ rolePermsOf db uid oid
          ++ groupPermsOf db uid oid).foldl insertPerm []).map Prod.fst := by
        rw [foldl_insertPerm_keys]
        exact Or.inr (List.mem_map_of_mem Permission.id hmem)
      rw [List.mem_map] at hkey
      obtain ⟨e, he, hid⟩ := hkey
      rcases foldl_insertPerm_mem _ _ _ he with h0 | ⟨h1, h2⟩
      · cases h0
      · have : e.2 = p :=
          perm_eq_of_id_eq db hids e.2 p (hsub e.2 h1) (hsub p hmem) (by rw [← h2, hid])
        rw [get_user_permissions_in_org, List.mem_map]
        exact ⟨e, he, this⟩
  · rw [get_user_permissions_in_org, List.map_map]
    have : ((directPerms db uid oid ++ rolePermsOf db uid oid
        ++ groupPermsOf db uid oid).foldl insertPerm []).map (Permission.id ∘ Prod.snd)
        = ((directPerms db uid oid ++ rolePermsOf db uid oid
        ++ groupPermsOf db uid oid).foldl insertPerm []).map Prod.fst := by
      refine List.map_congr_left ?_
      intro e he
      rcases foldl_insertPerm_mem _ _ _ he with h0 | ⟨_, h2⟩
      · cases h0
      · exact h2.symm
    rw [this]
    exact foldl_insertPerm_nodup _ [] List.nodup_nil
  · intro h1 h2 h3
    have hd : directPerms db uid oid = [] := by
      unfold directPerms
      rw [List.filter_eq_nil_iff.mpr (fun e he => by simpa using h1 e he)]
      rfl
    have hr : rolePermsOf db uid oid = [] := by
      unfold rolePermsOf
      rw [List.filter_eq_nil_iff.mpr (fun e he => by simpa using h2 e he)]
      rfl
    have hg : groupPermsOf db uid oid = [] := by
      unfold groupPermsOf
      rw [List.filter_eq_nil_iff.mpr (fun e he => by simpa using h3 e he)]
      rfl
    have hempty : get_user_permissions_in_org db uid oid = [] := by
      rw [get_user_permissions_in_org, hd, hr, hg]
      rfl
    refine ⟨hempty, ?_⟩
    intro now today user resource action context hadm huid hoid
    simp [has_permission, hadm, resolveOrg, strTruthy, hoid, huid, hempty]

/-- C2 witness: the resolver on a concrete store where p1 is reachable
both directly and through a role. -/
theorem claim_C2_witness :
    (∀ p : Permission,
      p ∈ get_user_permissions_in_org dbEx "u1" "o1" ↔
        (p ∈ directPerms dbEx "u1" "o1" ∨ p ∈ rolePermsOf dbEx "u1" "o1"
          ∨ p ∈ groupPermsOf dbEx "u1" "o1"))
    ∧ ((get_user_permissions_in_org dbEx "u1" "o1").map Permission.id).Nodup
    ∧ ((∀ e ∈ dbEx.organization_user_permissions, ¬(e.user_id = "u1" ∧ e.organization_id = "o1")) →
       (∀ e ∈ dbEx.organization_user_roles, ¬(e.user_id = "u1" ∧ e.organization_id = "o1")) →
       (∀ e ∈ dbEx.organization_user_groups, ¬(e.user_id = "u1" ∧ e.organization_id = "o1")) →
       get_user_permissions_in_org dbEx "u1" "o1" = []
       ∧ (∀ (now : PTime) (today : String) (user : UserRow) (resource action : String)
            (context : Option Ctx),
           user.is_admin = false → user.id = "u1" → strIsEmpty "o1" = false →
           (has_permission now today dbEx user resource action (some "o1") context).1 = false)) :=
  claim_C2 dbEx "u1" "o1" (by decide)

/-- Appending a row whose key clashes with no existing row keeps the
mapped key list duplicate-free. -/
theorem nodup_map_append_single {α β : Type} (l : List α) (f : α → β) (x : α)
    (h : (l.map f).Nodup) (hx : ∀ e ∈ l, f e ≠ f x) : ((l ++ [x]).map f).Nodup := by
  rw [List.map_append, List.nodup_append]
  refine ⟨h, List.nodup_singleton _, ?_⟩
  intro k hk hk1
  rw [List.map_singleton, List.mem_singleton] at hk1
  subst hk1
  rw [List.mem_map] at hk
  obtain ⟨e, he, hfe⟩ := hk
  exact hx e he hfe

/-- The insert branch of the user-role assignment route. -/
theorem assign_role_to_user_insert (db : DB) (org uid rid a : String)
    (h : ¬∃ e ∈ db.organization_user_roles,
        e.organization_id = org ∧ e.user_id = uid ∧ e.role_id = rid) :
    assign_role_to_user db org uid rid a =
      ({ db with organization_user_roles :=
          db.organization_user_roles ++ [⟨org, uid, rid, some a⟩] },
       RouteOutcome.ok "Role assigned to user successfully") := by
  unfold assign_role_to_user
  rw [if_neg (by simpa [List.any_eq_true] using h)]

/-- The no-op branch of the user-role assignment route. -/
theorem assign_role_to_user_noop (db : DB) (org uid rid a : String)
    (h : ∃ e ∈ db.organization_user_roles,
        e.organization_id = org ∧ e.user_id = uid ∧ e.role_id = rid) :
    assign_role_to_user db org uid rid a =
      (db, RouteOutcome.ok "Role already assigned to user in this organization") := by
  unfold assign_role_to_user
  rw [if_pos (by simpa [List.any_eq_true] using h)]

/-- C8: assigning the same role to the same user in the same organization
twice leaves exactly one matching row and both invocations return a 200
message, the second being the no-op message; and every assignment route
preserves freedom from duplicate grant edges. -/
theorem claim_C8 :
    (∀ (db : DB) (org uid rid a1 a2 : String),
      countRoleEdge db org uid rid = 0 →
      countRoleEdge
          (assign_role_to_user (assign_role_to_user db org uid rid a1).1 org uid rid a2).1
          org uid rid = 1
      ∧ (assign_role_to_user db org uid rid a1).2
          = RouteOutcome.ok "Role assigned to user successfully"
      ∧ (assign_role_to_user (assign_role_to_user db org uid rid a1).1 org uid rid a2).2
          = RouteOutcome.ok "Role already assigned to user in this organization")
    ∧ (∀ db : DB, noDupGrantEdges db →
        (∀ org uid rid a, noDupGrantEdges (assign_role_to_user db org uid rid a).1)
        ∧ (∀ org uid pid a, noDupGrantEdges (assign_permission_to_user db org uid pid a).1)
        ∧ (∀ gid org uid, noDupGrantEdges (add_user_to_group db gid org uid).1)
        ∧ (∀ gid rid, noDupGrantEdges (assign_role_to_group db gid rid).1)
        ∧ (∀ rid pid, noDupGrantEdges (assign_permission_to_role db rid pid).1)) := by
  constructor
  · intro db org uid rid a1 a2 h0
    have hfil : db.organization_user_roles.filter (fun e =>
        decide (e.organization_id = org ∧ e.user_id = uid ∧ e.role_id = rid)) = [] :=
      List.length_eq_zero.mp h0
    have hne : ¬∃ e ∈ db.organization_user_roles,
        e.organization_id = org ∧ e.user_id = uid ∧ e.role_id = rid := by
      rintro ⟨e, he, hp⟩
      have := List.filter_eq_nil_iff.mp hfil e he
      simp only [decide_eq_true_eq] at this
      exact this hp
    have e1 := assign_role_to_user_insert db org uid rid a1 hne
    have e2 := assign_role_to_user_noop
      ({ db with organization_user_roles :=
          db.organization_user_roles ++ [⟨org, uid, rid, some a1⟩] })
      org uid rid a2
      ⟨⟨org, uid, rid, some a1⟩, by simp, rfl, rfl, rfl⟩
    rw [e1] at *
    refine ⟨?_, rfl, by rw [e2]⟩
    rw [e2]
    unfold countRoleEdge
    simp [List.filter_append, hfil]
    intro a ha hh1 hh2 hh3
    exact hne ⟨a, ha, hh1, hh2, hh3⟩
  · intro db hnd
    obtain ⟨n1, n2, n3, n4, n5⟩ := hnd
    refine ⟨?_, ?_, ?_, ?_, ?_⟩
    · intro org uid rid a
      unfold assign_role_to_user noDupGrantEdges
      split
      next => exact ⟨n1, n2, n3, n4, n5⟩
      next h =>
        refine ⟨?_, n2, n3, n4, n5⟩
        refine nodup_map_append_single _ _ _ n1 ?_
        intro e he heq
        apply h
        rw [List.any_eq_true]
        refine ⟨e, he, ?_⟩
        rw [decide_eq_true_eq]
        simpa using heq
    · intro org uid pid a
      unfold assign_permission_to_user noDupGrantEdges
      split
      next => exact ⟨n1, n2, n3, n4, n5⟩
      next h =>
        refine ⟨n1, ?_, n3, n4, n5⟩
        refine nodup_map_append_single _ _ _ n2 ?_
        intro e he heq
        apply h
        rw [List.any_eq_true]
        refine ⟨e, he, ?_⟩
        rw [decide_eq_true_eq]
        simpa using heq
    · intro gid org uid
      unfold add_user_to_group noDupGrantEdges
      split
      next => exact ⟨n1, n2, n3, n4, n5⟩
      next h =>
        refine ⟨n1, n2, ?_, n4, n5⟩
        refine nodup_map_append_single _ _ _ n3 ?_
        intro e he heq
        apply h
        rw [List.any_eq_true]
        refine ⟨e, he, ?_⟩
        rw [decide_eq_true_eq]
        simpa using heq
    · intro gid rid
      unfold assign_role_to_group noDupGrantEdges
      split
      next => exact ⟨n1, n2, n3, n4, n5⟩
      next h =>
        refine ⟨n1, n2, n3, n4, ?_⟩
        refine nodup_map_append_single _ _ _ n5 ?_
        intro e he heq
        apply h
        rw [List.any_eq_true]
        refine ⟨e, he, ?_⟩
        rw [decide_eq_true_eq]
        simpa using heq
    · intro rid pid
      unfold assign_permission_to_role noDupGrantEdges
      cases db.roles.find? (fun r => decide (r.id = rid)) with
      | none => exact ⟨n1, n2, n3, n4, n5⟩
      | some role =>
        cases db.permissions.find? (fun p => decide (p.id = pid)) with
        | none => exact ⟨n1, n2, n3, n4, n5⟩
        | some permission =>
          dsimp only
          split
          next => exact ⟨n1, n2, n3, n4, n5⟩
          next h =>
            refine ⟨n1, n2, n3, ?_, n5⟩
            refine nodup_map_append_single _ _ _ n4 ?_
            intro e he heq
            apply h
            rw [List.any_eq_true]
            refine ⟨e, he, ?_⟩
            rw [decide_eq_true_eq]
            simpa using heq

/-- C8 witness: assigning role r to user u in organization o twice on an
initially empty store. -/
theorem claim_C8_witness :
    (countRoleEdge
        (assign_role_to_user
          (assign_role_to_user ⟨[], [], [], [], [], [], []⟩ "o" "u" "r" "a").1
          "o" "u" "r" "a").1 "o" "u" "r" = 1
      ∧ (assign_role_to_user ⟨[], [], [], [], [], [], []⟩ "o" "u" "r" "a").2
          = RouteOutcome.ok "Role assigned to user successfully"
      ∧ (assign_role_to_user
          (assign_role_to_user ⟨[], [], [], [], [], [], []⟩ "o" "u" "r" "a").1
          "o" "u" "r" "a").2
          = RouteOutcome.ok "Role already assigned to user in this organization")
    ∧ noDupGrantEdges (assign_role_to_user dbEx "o1" "u1" "r1" "a").1 :=
  ⟨claim_C8.1 ⟨[], [], [], [], [], [], []⟩ "o" "u" "r" "a" "a" (by decide),
   (claim_C8.2 dbEx (by unfold noDupGrantEdges; decide)).1 "o1" "u1" "r1" "a"⟩
